import Mathlib

/-!
Verification of the gosmpp SMPP client core: a shallow embedding of the
ShortMessage segmentation and marshalling code, of the writer engine error
triage and settings normalization, of the client close wiring, and of the
session factories, together with theorems settling the specification claims.

Bytes are modelled as Nat values below 256; byte truncation in the source
is modelled by explicit reduction modulo 256. Go errors are modelled by an
Option in the result; a Go runtime fault on a nil interface method call is
modelled by an outer Option returning none.
-/

namespace Gosmpp

/-- Errors of the pdu and data packages that the embedded code can surface.
The constructor external stands for an arbitrary error value produced by an
external collaborator such as an encoding. -/
inductive Err
  | ErrShortMessageLengthTooLarge
  | ErrUDHTooLong
  | external (code : Nat)
deriving DecidableEq, Repr

/-- Modelled from the spec: data.SM_MSG_LEN, the 254 octet single segment
limit on the wire for a ShortMessage body (the data package is an external
collaborator of this repository). -/
def SM_MSG_LEN : Nat := 254

/-- Modelled from the spec: data.SM_GSM_MSG_LEN, the 140 octet budget used
by Split as the single segment limit handed to the splitter. -/
def SM_GSM_MSG_LEN : Nat := 140

/-- Modelled from the spec: the data.Splitter capability of the external
character encoding registry. ShouldSplit reports whether the message needs
splitting for the given octet limit; EncodeSplit chops the message into
encoded chunks of at most the given size, or fails. -/
structure Splitter where
  shouldSplit : String → Nat → Bool
  encodeSplit : String → Nat → List (List Nat) × Option Err

/-- Modelled from the spec: the data.Encoding interface of the external
character encoding registry. DataCoding is the one byte coding identifier;
encode turns a string into bytes with a possible error. The optional
splitter field models the Go type assertion to data.Splitter. -/
structure Encoding where
  dataCoding : Nat
  encode : String → List Nat × Option Err
  splitter : Option Splitter := none

/-- One User Data Header information element: a one byte tag and a value.
Modelled from the spec: pdu.InfoElement of the repository is not under
src, only its ShortMessage callers are. -/
structure InfoElement where
  tag : Nat
  data : List Nat
deriving DecidableEq, Repr

/-- A User Data Header is an ordered list of information elements. -/
abbrev UDH := List InfoElement

/-- Sum of the encoded sizes of the information elements: two header bytes
plus the value bytes for each element. This is the value carried by the
leading UDHL octet. -/
def udhSum : UDH → Nat
  | [] => 0
  | ie :: rest => 2 + ie.data.length + udhSum rest

/-- Modelled from the spec: pdu.UDH.UDHL returns the full encoded size of
the header in octets, including the leading UDHL octet itself, and 0 for
an empty header (the concatenation UDH is 6 octets and GetMessageData
skips UDHL bytes). -/
def UDHL (u : UDH) : Nat :=
  if udhSum u = 0 then 0 else udhSum u + 1

/-- Modelled from the spec: body of pdu.UDH.MarshalBinary for the element
list, each element emitted as tag, length, value. -/
def marshalIEs : List InfoElement → List Nat
  | [] => []
  | ie :: rest => (ie.tag % 256) :: (ie.data.length % 256) :: ie.data ++ marshalIEs rest

/-- Modelled from the spec: pdu.UDH.MarshalBinary emits the UDHL octet
(the summed element sizes) followed by the encoded elements. -/
def udhMarshalBinary (u : UDH) : List Nat :=
  (udhSum u % 256) :: marshalIEs u

/-- Modelled from the spec: the element parser inside pdu.UDH.UnmarshalBinary,
reading tag, length, value triples until the window is exhausted. The fuel
argument bounds the recursion; every element consumes at least two bytes, so
fuel equal to the window size is always enough. -/
def parseIEs : Nat → List Nat → Option (List InfoElement)
  | _, [] => some []
  | 0, _ :: _ => none
  | fuel + 1, t :: rest =>
    match rest with
    | [] => none
    | l :: rest2 =>
      if l ≤ rest2.length then
        match parseIEs fuel (rest2.drop l) with
        | some ies => some ({ tag := t, data := rest2.take l } :: ies)
        | none => none
      else none

/-- Modelled from the spec: pdu.UDH.UnmarshalBinary consumes the UDHL octet
and then the elements inside that window, returning the parsed header and
the number of bytes consumed, or failing on a truncated header. -/
def udhUnmarshalBinary (bs : List Nat) : Option (UDH × Nat) :=
  match bs with
  | [] => none
  | l :: rest =>
    if l ≤ rest.length then
      match parseIEs l (rest.take l) with
      | some ies => some (ies, l + 1)
      | none => none
    else none

/-- Modelled from the spec: pdu.NewIEConcatMessage builds the concatenation
information element, tag 0, length 3, value reference then total parts then
part index. The argument order follows the source call site: total, part
index, reference. -/
def NewIEConcatMessage (total partNum refNum : Nat) : InfoElement :=
  { tag := 0, data := [refNum, total, partNum] }

/-- The ShortMessage record of the pdu package. Field defaults model the Go
zero values; enc none models a nil encoding interface. -/
structure ShortMessage where
  SmDefaultMsgID : Nat := 0
  dataCoding : Nat := 0
  message : String := ""
  enc : Option Encoding := none
  udHeader : UDH := []
  messageData : List Nat := []
  withoutDataCoding : Bool := false

/-- A ShortMessage holding only Go zero values apart from the flag. -/
def zeroValueSM (w : Bool) : ShortMessage := { withoutDataCoding := w }

/-- ShortMessage.SetMessageWithEncoding: encode the message, reject an
encoding longer than SM_MSG_LEN, otherwise store message, encoding and data
coding. A nil encoding makes the method call on the interface fault, hence
the outer none. -/
def ShortMessage.SetMessageWithEncoding (c : ShortMessage) (message : String)
    (enc : Option Encoding) : Option (ShortMessage × Option Err) :=
  match enc with
  | none => none
  | some e =>
    match e.encode message with
    | (bs, some err) => some ({ c with messageData := bs }, some err)
    | (bs, none) =>
      if bs.length > SM_MSG_LEN then
        some ({ c with messageData := bs }, some Err.ErrShortMessageLengthTooLarge)
      else
        some ({ c with messageData := bs, message := message, enc := some e,
                       dataCoding := e.dataCoding }, none)

/-- ShortMessage.SetDataCoding sets the data coding byte and rederives the
encoding from the registry (FromDataCoding is the external registry lookup,
passed as a parameter). -/
def ShortMessage.SetDataCoding (fdc : Nat → Option Encoding) (c : ShortMessage)
    (coding : Nat) : ShortMessage :=
  { c with dataCoding := coding, enc := fdc coding }

/-- ShortMessage.GetMessageData: empty payload returns success with no data;
otherwise fail with ErrUDHTooLong when the header length reaches the payload
length, else return the payload with the header bytes skipped. -/
def ShortMessage.GetMessageData (c : ShortMessage) : List Nat × Option Err :=
  if c.messageData.length = 0 then ([], none)
  else
    let t := c.messageData.length
    let f := UDHL c.udHeader
    if f ≥ t then ([], some Err.ErrUDHTooLong)
    else (c.messageData.drop f, none)

/-- ShortMessage.Marshal: optional data coding byte, the default message id
byte, the length byte (payload plus header size, truncated to a byte), the
header bytes when present, then the payload truncated to the byte sized
length. -/
def ShortMessage.Marshal (c : ShortMessage) : List Nat :=
  let n := c.messageData.length % 256
  let udhBin : Option (List Nat) :=
    if UDHL c.udHeader > 0 then some (udhMarshalBinary c.udHeader) else none
  (if c.withoutDataCoding then [] else [c.dataCoding % 256]) ++
  [c.SmDefaultMsgID % 256] ++
  (match udhBin with
   | some ub => ((n + ub.length) % 256) :: ub
   | none => [n]) ++
  c.messageData.take n

/-- Reading one byte from the buffer. -/
def readByte : List Nat → Option (Nat × List Nat)
  | [] => none
  | b :: rest => some (b, rest)

/-- Reading exactly n bytes from the buffer, failing when fewer remain. -/
def readN (n : Nat) (bs : List Nat) : Option (List Nat × List Nat) :=
  if n ≤ bs.length then some (bs.take n, bs.drop n) else none

/-- ShortMessage.Unmarshal: read the data coding byte unless the flag
suppresses it (the local variable then stays zero), read the default message
id and the length byte, read that many payload bytes, call SetDataCoding
unconditionally, and when the udhi flag is set on a nonempty payload parse
the leading bytes as a UDH without trimming the payload. -/
def ShortMessage.Unmarshal (fdc : Nat → Option Encoding) (c0 : ShortMessage)
    (bs : List Nat) (udhi : Bool) : Option ShortMessage :=
  match (if c0.withoutDataCoding then some (0, bs) else readByte bs) with
  | none => none
  | some (dataCoding, bs1) =>
    match readByte bs1 with
    | none => none
    | some (msgId, bs2) =>
      match readByte bs2 with
      | none => none
      | some (n, bs3) =>
        match readN n bs3 with
        | none => none
        | some (md, _) =>
          let c := ShortMessage.SetDataCoding fdc
            { c0 with SmDefaultMsgID := msgId, messageData := md } dataCoding
          if udhi ∧ n > 0 then
            match udhUnmarshalBinary md with
            | none => none
            | some (u, _) => some { c with udHeader := u }
          else some c

/-- The segment construction loop of ShortMessage.Split: each chunk becomes
a ShortMessage carrying the original encoding reference, the data coding of
that encoding, the flag, and a one element concatenation header; the byte
casts at the call site are modelled by reduction modulo 256. -/
def mkSegments (c : ShortMessage) (e : Encoding) (total refNum : Nat) :
    Nat → List (List Nat) → List ShortMessage
  | _, [] => []
  | i, seg :: rest =>
    { SmDefaultMsgID := 0, dataCoding := e.dataCoding, message := "",
      enc := c.enc, messageData := seg, withoutDataCoding := c.withoutDataCoding,
      udHeader := [NewIEConcatMessage (total % 256) ((i + 1) % 256) (refNum % 256)] } ::
      mkSegments c e total refNum (i + 1) rest

/-- ShortMessage.Split: substitute GSM7BIT for a nil encoding only for the
split decision; without a splitter or without need to split, reencode via
SetMessageWithEncoding with the original (possibly nil) encoding and return
the receiver; otherwise chop with six bytes reserved for the header and
emit the segments, reading DataCoding from the original (possibly nil)
encoding. The fresh reference number drawn from the global counter is a
parameter; gsm7 stands for the external data.GSM7BIT value. -/
def ShortMessage.Split (gsm7 : Encoding) (refNum : Nat) (c : ShortMessage) :
    Option (List ShortMessage × Option Err) :=
  let encoding := match c.enc with | none => gsm7 | some e => e
  let noSplit : Option (List ShortMessage × Option Err) :=
    match ShortMessage.SetMessageWithEncoding c c.message c.enc with
    | none => none
    | some (c1, err) => some ([c1], err)
  match encoding.splitter with
  | none => noSplit
  | some sp =>
    if sp.shouldSplit c.message SM_GSM_MSG_LEN then
      match sp.encodeSplit c.message (SM_GSM_MSG_LEN - 6) with
      | (_, some e) => some ([], some e)
      | (segments, none) =>
        match c.enc with
        | none => if segments.isEmpty then some ([], none) else none
        | some e => some (mkSegments c e segments.length refNum 0 segments, none)
    else noSplit

/-- The close states surfaced via the closed callbacks. -/
inductive State
  | ExplicitClosing
  | StoppingProcessOnly
  | ConnectionIssue
  | InvalidStreaming
  | UnbindClosing
deriving DecidableEq, Repr

/-- Observable state of one client: the one shot close flags of writer and
reader, whether the shared connection is still open, the state arguments
with which each engine actually completed a close, and the states delivered
upward through the client level OnClosed callback. -/
structure ClientModel where
  writerClosed : Bool
  readerClosed : Bool
  connOpen : Bool
  writerClosedWith : List State
  readerClosedWith : List State
  upward : List State
deriving DecidableEq, Repr

/-- A fresh client as built by newClient: both engines open, connection
open, no close events yet. -/
def freshClient : ClientModel :=
  { writerClosed := false, readerClosed := false, connOpen := true,
    writerClosedWith := [], readerClosedWith := [], upward := [] }

/-- The four entry points of the close protocol: writer close, the writer
OnClosed wiring of newClient, reader close, and the reader OnClosed wiring
of newClient. -/
inductive Call
  | wClose (st : State)
  | wOn (st : State)
  | rClose (st : State)
  | rOn (st : State)

/-- One step interpreter for the mutually recursive close protocol of
writer.close, reader.close and the OnClosed wiring installed by newClient.
The fuel bounds the callback recursion; the wiring only reenters a close
with ExplicitClosing, whose callbacks return at once, so any fuel of at
least four gives the full behaviour. wClose: under the write lock, when the
flag is still clear, close the connection unless the state is
StoppingProcessOnly, fire the callback, then set the flag. rClose: compare
and swap the flag first, close the connection unless StoppingProcessOnly,
then fire the callback. wOn: on ConnectionIssue close the reader via
Reader.Close (ExplicitClosing) and propagate ConnectionIssue upward; all
other states return. rOn: on InvalidStreaming or UnbindClosing close the
writer via Writer.Close (ExplicitClosing) and propagate the state upward;
all other states return. -/
def run : Nat → Call → ClientModel → ClientModel
  | 0, _, c => c
  | fuel + 1, call, c =>
    match call with
    | Call.wClose st =>
      if c.writerClosed then c
      else
        let c1 := if st = State.StoppingProcessOnly then c else { c with connOpen := false }
        let c2 := run fuel (Call.wOn st) c1
        { c2 with writerClosed := true, writerClosedWith := c2.writerClosedWith ++ [st] }
    | Call.wOn st =>
      match st with
      | State.ExplicitClosing => c
      | State.ConnectionIssue =>
        let c1 := run fuel (Call.rClose State.ExplicitClosing) c
        { c1 with upward := c1.upward ++ [State.ConnectionIssue] }
      | _ => c
    | Call.rClose st =>
      if c.readerClosed then c
      else
        let c0 := { c with readerClosed := true, readerClosedWith := c.readerClosedWith ++ [st] }
        let c1 := if st = State.StoppingProcessOnly then c0 else { c0 with connOpen := false }
        run fuel (Call.rOn st) c1
    | Call.rOn st =>
      match st with
      | State.ExplicitClosing => c
      | State.InvalidStreaming =>
        let c1 := run fuel (Call.wClose State.ExplicitClosing) c
        { c1 with upward := c1.upward ++ [State.InvalidStreaming] }
      | State.UnbindClosing =>
        let c1 := run fuel (Call.wClose State.ExplicitClosing) c
        { c1 with upward := c1.upward ++ [State.UnbindClosing] }
      | _ => c

/-- A Go net.Error as seen by the writer triage: the two predicates the
triage consults. -/
structure NetError where
  timeout : Bool
  temporary : Bool
deriving DecidableEq, Repr

/-- An error returned by a write: either a recognized network error or any
other error value. -/
inductive WriteError
  | net (e : NetError)
  | other
deriving DecidableEq, Repr

/-- writer.check: no error is a no op; with an error and zero bytes written,
a network error closes exactly when it is a timeout or not temporary and any
other error closes; with bytes written the writer closes unconditionally.
The second component records the asynchronous close transition started by
t.closing, always with state ConnectionIssue. -/
def writerCheck (n : Nat) (err : Option WriteError) : Bool × Option State :=
  match err with
  | none => (false, none)
  | some e =>
    let closing :=
      if n = 0 then
        match e with
        | WriteError.net ne => ne.timeout || !ne.temporary
        | WriteError.other => true
      else true
    (closing, if closing then some State.ConnectionIssue else none)

/-- EnquireLinkIntervalMinimum, 20 seconds in nanoseconds (Go durations are
an integer nanosecond count). -/
def EnquireLinkIntervalMinimum : Int := 20 * 1000000000

/-- writerSettings.normalize: any enquire link interval at most the minimum,
zero and negative values included, is raised to the minimum. -/
def writerSettingsNormalize (enquireLink : Int) : Int :=
  if enquireLink ≤ EnquireLinkIntervalMinimum then EnquireLinkIntervalMinimum else enquireLink

/-- The two loop bodies writer.start can launch. -/
inductive WriterLoop
  | plain
  | withEnquireLink
deriving DecidableEq, Repr

/-- writer.start chooses the loop with the enquire link ticker exactly when
the (already normalized) interval is positive. -/
def writerStart (enquireLink : Int) : WriterLoop :=
  if enquireLink > 0 then WriterLoop.withEnquireLink else WriterLoop.plain

/-- The enquire link interval a writer built by newWriter actually runs
with: newWriter normalizes the settings before storing them. -/
def newWriterEnquireLink (enquireLink : Int) : Int :=
  writerSettingsNormalize enquireLink

/-- pdu.BindingType with its three roles. -/
inductive BindingType
  | Receiver
  | Transmitter
  | Transceiver
deriving DecidableEq, Repr

/-- The session record part relevant to binding: the role stored at
construction. -/
structure SessionModel where
  bindingType : BindingType
deriving DecidableEq, Repr

/-- connectAs forwards the requested binding type unchanged into the bind
request. -/
def connectAsBinding (b : BindingType) : BindingType := b

/-- newSession stores the binding type it was given. -/
def newSessionModel (b : BindingType) : SessionModel := { bindingType := b }

/-- The binding type used for the initial bind inside newSession. -/
def sessionInitialBind (b : BindingType) : BindingType := connectAsBinding b

/-- The binding type used by session.rebind: it rebinds with the stored
binding type. -/
def sessionRebindBind (s : SessionModel) : BindingType := connectAsBinding s.bindingType

/-- The binding type NewReceiverSession passes to newSession. -/
def NewReceiverSessionBinding : BindingType := BindingType.Transmitter

/-- The binding type NewTransmitterSession passes to newSession. -/
def NewTransmitterSessionBinding : BindingType := BindingType.Transmitter

/-- The binding type NewTransceiverSession passes to newSession. -/
def NewTransceiverSessionBinding : BindingType := BindingType.Transceiver

/-- Claim C1, counterexample: starting from a fresh client, a writer close
with ConnectionIssue closes the Reader with state ExplicitClosing, not
StoppingProcessOnly, and the Connection does not stay open, so the claim as
stated fails at this input. -/
theorem c1_counterexample :
    (run 10 (Call.wClose State.ConnectionIssue) freshClient).readerClosedWith =
      [State.ExplicitClosing] ∧
    ([State.ExplicitClosing] : List State) ≠ [State.StoppingProcessOnly] ∧
    (run 10 (Call.wClose State.ConnectionIssue) freshClient).connOpen = false := by
  decide

/-- Claim C1 (amended): when the Writer reports closed with ConnectionIssue
while both engines are open, the Client closes its Reader via Reader.Close,
that is with state ExplicitClosing, and the Connection ends up closed; when
the Reader reports closed with InvalidStreaming or UnbindClosing, the
Client closes its Writer via Writer.Close, with state ExplicitClosing, and
the Connection ends up closed; in all three cases the closed event is
propagated upward with the originating state. -/
theorem c1_peer_close_wiring (c : ClientModel)
    (hw : c.writerClosed = false) (hr : c.readerClosed = false) :
    (run 10 (Call.wClose State.ConnectionIssue) c).readerClosedWith =
      c.readerClosedWith ++ [State.ExplicitClosing] ∧
    (run 10 (Call.wClose State.ConnectionIssue) c).connOpen = false ∧
    (run 10 (Call.wClose State.ConnectionIssue) c).upward =
      c.upward ++ [State.ConnectionIssue] ∧
    (run 10 (Call.rClose State.InvalidStreaming) c).writerClosedWith =
      c.writerClosedWith ++ [State.ExplicitClosing] ∧
    (run 10 (Call.rClose State.InvalidStreaming) c).connOpen = false ∧
    (run 10 (Call.rClose State.InvalidStreaming) c).upward =
      c.upward ++ [State.InvalidStreaming] ∧
    (run 10 (Call.rClose State.UnbindClosing) c).writerClosedWith =
      c.writerClosedWith ++ [State.ExplicitClosing] ∧
    (run 10 (Call.rClose State.UnbindClosing) c).connOpen = false ∧
    (run 10 (Call.rClose State.UnbindClosing) c).upward =
      c.upward ++ [State.UnbindClosing] := by
  simp [run, hw, hr]

/-- Claim C1, witness: the amended wiring theorem applied to the fresh
client. -/
theorem c1_peer_close_wiring_witness :
    (run 10 (Call.wClose State.ConnectionIssue) freshClient).readerClosedWith =
      freshClient.readerClosedWith ++ [State.ExplicitClosing] ∧
    (run 10 (Call.wClose State.ConnectionIssue) freshClient).connOpen = false ∧
    (run 10 (Call.wClose State.ConnectionIssue) freshClient).upward =
      freshClient.upward ++ [State.ConnectionIssue] ∧
    (run 10 (Call.rClose State.InvalidStreaming) freshClient).writerClosedWith =
      freshClient.writerClosedWith ++ [State.ExplicitClosing] ∧
    (run 10 (Call.rClose State.InvalidStreaming) freshClient).connOpen = false ∧
    (run 10 (Call.rClose State.InvalidStreaming) freshClient).upward =
      freshClient.upward ++ [State.InvalidStreaming] ∧
    (run 10 (Call.rClose State.UnbindClosing) freshClient).writerClosedWith =
      freshClient.writerClosedWith ++ [State.ExplicitClosing] ∧
    (run 10 (Call.rClose State.UnbindClosing) freshClient).connOpen = false ∧
    (run 10 (Call.rClose State.UnbindClosing) freshClient).upward =
      freshClient.upward ++ [State.UnbindClosing] :=
  c1_peer_close_wiring freshClient rfl rfl

/-- Claim C2, counterexample: a write error with zero bytes written whose
network error is a timeout and temporary does mark the writer closing and
starts the close transition to ConnectionIssue, so the claim as stated
fails at this input. -/
theorem c2_counterexample :
    writerCheck 0 (some (WriteError.net { timeout := true, temporary := true })) =
      (true, some State.ConnectionIssue) := by
  decide

/-- Claim C2 (amended): for a write error with zero bytes written and a
recognized network error, the writer triage marks the writer closing
exactly when the error is a timeout or is not temporary; in particular a
transient timeout network error does close, and whenever the triage closes
it starts the close transition with state ConnectionIssue. -/
theorem c2_zero_write_triage (ne : NetError) :
    ((writerCheck 0 (some (WriteError.net ne))).fst = true ↔
      (ne.timeout = true ∨ ne.temporary = false)) ∧
    ((writerCheck 0 (some (WriteError.net ne))).fst = true →
      (writerCheck 0 (some (WriteError.net ne))).snd = some State.ConnectionIssue) := by
  rcases ne with ⟨t, tmp⟩
  cases t <;> cases tmp <;> decide

/-- Claim C2, witness: the triage theorem applied to a timeout error that is
not temporary. -/
theorem c2_zero_write_triage_witness :
    (writerCheck 0 (some (WriteError.net { timeout := true, temporary := false }))).snd =
      some State.ConnectionIssue :=
  (c2_zero_write_triage { timeout := true, temporary := false }).2
    ((c2_zero_write_triage { timeout := true, temporary := false }).1.mpr (Or.inl rfl))

/-- Claim C3: a writer created with enquire link interval zero does not run
with the interval left at zero; normalize raises it to the 20 second
minimum and start therefore launches the enquire link ticker loop, not the
plain drain loop, contradicting the documented behaviour that zero
disables periodic enquire link. -/
theorem c3_zero_interval_not_disabled :
    newWriterEnquireLink 0 = EnquireLinkIntervalMinimum ∧
    EnquireLinkIntervalMinimum = 20 * 1000000000 ∧
    writerStart (newWriterEnquireLink 0) = WriterLoop.withEnquireLink ∧
    writerStart 0 = WriterLoop.plain := by
  refine ⟨by decide, rfl, by decide, by decide⟩

/-- Claim C4: the Receiver session factory passes the Transmitter binding
type to newSession, so a session created by it performs its initial bind
and every rebind as Transmitter, not Receiver; the Transmitter and
Transceiver factories pass their own types, and newSession together with
rebind preserve whatever type was passed. -/
theorem c4_receiver_factory_binds_transmitter :
    NewReceiverSessionBinding = BindingType.Transmitter ∧
    NewReceiverSessionBinding ≠ BindingType.Receiver ∧
    NewTransmitterSessionBinding = BindingType.Transmitter ∧
    NewTransceiverSessionBinding = BindingType.Transceiver ∧
    (∀ b, sessionInitialBind b = b ∧ sessionRebindBind (newSessionModel b) = b) := by
  exact ⟨rfl, by decide, rfl, rfl, fun b => ⟨rfl, rfl⟩⟩

/-- Claim C7, counterexample: on an empty payload GetMessageData returns
success with no data even though UDHL reaches the payload length, so the
claim that it fails with ErrUDHTooLong exactly when UDHL is at least the
payload length, the empty payload included, fails at this input. -/
theorem c7_counterexample :
    ShortMessage.GetMessageData (zeroValueSM false) = ([], none) ∧
    UDHL (zeroValueSM false).udHeader ≥ (zeroValueSM false).messageData.length := by
  constructor
  · rfl
  · decide

/-- Claim C7 (amended): GetMessageData fails with ErrUDHTooLong exactly when
the payload is nonempty and UDHL reaches its length; an empty payload
returns success; and on success the returned data is the payload with the
first UDHL bytes skipped. -/
theorem c7_getMessageData (c : ShortMessage) :
    ((ShortMessage.GetMessageData c).snd = some Err.ErrUDHTooLong ↔
      (c.messageData ≠ [] ∧ UDHL c.udHeader ≥ c.messageData.length)) ∧
    ((ShortMessage.GetMessageData c).snd = none →
      (ShortMessage.GetMessageData c).fst = c.messageData.drop (UDHL c.udHeader)) := by
  unfold ShortMessage.GetMessageData
  by_cases h0 : c.messageData.length = 0
  · have he : c.messageData = [] := List.length_eq_zero.mp h0
    simp [h0, he]
  · by_cases hf : UDHL c.udHeader ≥ c.messageData.length
    · simp [h0, hf, List.length_eq_zero, h0]
      intro hnil
      exact absurd (by simp [hnil]) h0
    · simp [h0, hf]

/-- Claim C7, witness: the accessor theorem applied to a message with a
three byte payload and no header. -/
theorem c7_getMessageData_witness :
    (ShortMessage.GetMessageData { messageData := [9, 9, 9] }).fst =
      ({ messageData := [9, 9, 9] } : ShortMessage).messageData.drop
        (UDHL ({ messageData := [9, 9, 9] } : ShortMessage).udHeader) :=
  (c7_getMessageData { messageData := [9, 9, 9] }).2 rfl

/-- Claim C9: whenever Unmarshal succeeds on a ShortMessage whose
withoutDataCoding flag is set, no data coding byte was read from the wire,
yet SetDataCoding ran with the zero value: the resulting data coding field
is 0 and the encoding is the registry lookup at 0, whatever data coding and
encoding the record held before. -/
theorem c9_unmarshal_resets_data_coding (fdc : Nat → Option Encoding)
    (c0 c1 : ShortMessage) (bs : List Nat) (udhi : Bool)
    (hw : c0.withoutDataCoding = true)
    (h : ShortMessage.Unmarshal fdc c0 bs udhi = some c1) :
    c1.dataCoding = 0 ∧ c1.enc = fdc 0 := by
  unfold ShortMessage.Unmarshal at h
  rw [hw] at h
  simp only [if_true] at h
  cases hb1 : readByte bs with
  | none => rw [hb1] at h; exact Option.noConfusion h
  | some v1 =>
    simp only [hb1] at h
    obtain ⟨msgId, bs2⟩ := v1
    cases hb2 : readByte bs2 with
    | none => rw [hb2] at h; exact Option.noConfusion h
    | some v2 =>
      simp only [hb2] at h
      obtain ⟨n, bs3⟩ := v2
      cases hb3 : readN n bs3 with
      | none => rw [hb3] at h; exact Option.noConfusion h
      | some v3 =>
        simp only [hb3] at h
        obtain ⟨md, rest⟩ := v3
        by_cases hu : udhi = true ∧ n > 0
        · rw [if_pos hu] at h
          cases hb4 : udhUnmarshalBinary md with
          | none => rw [hb4] at h; exact Option.noConfusion h
          | some v4 =>
            simp only [hb4] at h
            obtain ⟨u, k⟩ := v4
            simp only [Option.some.injEq] at h
            subst h
            exact ⟨rfl, rfl⟩
        · rw [if_neg hu] at h
          simp only [Option.some.injEq] at h
          subst h
          exact ⟨rfl, rfl⟩

/-- Claim C9, witness: unmarshalling two wire bytes into a record with the
flag set yields data coding 0 and the registry lookup at 0. -/
theorem c9_unmarshal_resets_data_coding_witness :
    ({ SmDefaultMsgID := 3, withoutDataCoding := true } : ShortMessage).dataCoding = 0 ∧
    ({ SmDefaultMsgID := 3, withoutDataCoding := true } : ShortMessage).enc =
      (fun _ => (none : Option Encoding)) 0 :=
  c9_unmarshal_resets_data_coding (fun _ => none) (zeroValueSM true)
    { SmDefaultMsgID := 3, withoutDataCoding := true } [3, 0] false rfl rfl

/-- Claim C10: whenever the no split branch is taken, because the encoding
offers no splitter capability or because its splitter reports that no split
is needed, Split returns the one element list holding the receiver as
updated by the reencoding, paired with whatever error the reencoding
produced; so even when reencoding fails, with any encode error or because
the encoded form exceeds SM_MSG_LEN, the result list is the nonempty
[self]. The last conjunct is the particular oversized instance with
ErrShortMessageLengthTooLarge. -/
theorem c10_no_split_error_keeps_self (gsm7 : Encoding) (refNum : Nat)
    (c : ShortMessage) (e : Encoding)
    (henc : c.enc = some e)
    (hns : e.splitter = none ∨
      (∃ sp, e.splitter = some sp ∧ sp.shouldSplit c.message SM_GSM_MSG_LEN = false)) :
    ShortMessage.Split gsm7 refNum c =
      (ShortMessage.SetMessageWithEncoding c c.message c.enc).map
        (fun p => ([p.1], p.2)) ∧
    (∀ bs err, e.encode c.message = (bs, some err) →
      ShortMessage.Split gsm7 refNum c =
        some ([{ c with messageData := bs }], some err)) ∧
    (∀ bs, e.encode c.message = (bs, none) → bs.length > SM_MSG_LEN →
      ShortMessage.Split gsm7 refNum c =
        some ([{ c with messageData := bs }], some Err.ErrShortMessageLengthTooLarge)) := by
  have hsplit : ShortMessage.Split gsm7 refNum c =
      match ShortMessage.SetMessageWithEncoding c c.message (some e) with
      | none => none
      | some (c1, err) => some ([c1], err) := by
    unfold ShortMessage.Split
    rw [henc]
    rcases hns with hsp | ⟨sp, hsp, hshould⟩
    · simp only [hsp]
    · simp only [hsp, hshould, Bool.false_eq_true, if_false]
  refine ⟨?_, ?_, ?_⟩
  · rw [hsplit, henc]
    cases ShortMessage.SetMessageWithEncoding c c.message (some e) with
    | none => rfl
    | some p => obtain ⟨c1, err⟩ := p; rfl
  · intro bs err hencode
    rw [hsplit]
    unfold ShortMessage.SetMessageWithEncoding
    simp only [hencode]
  · intro bs hencode hbig
    rw [hsplit]
    unfold ShortMessage.SetMessageWithEncoding
    simp only [hencode, hbig, if_true]

/-- A test encoding whose encoded form always exceeds the single segment
limit and which offers no splitter. -/
def encBig : Encoding :=
  { dataCoding := 1, encode := fun _ => (List.replicate 255 0, none) }

/-- A plain test encoding standing in for the external GSM7BIT value. -/
def gsm7Test : Encoding :=
  { dataCoding := 0, encode := fun _ => ([], none) }

/-- Claim C10, witness: the no split error theorem applied to a message
whose non splitter encoding produces 255 octets. -/
theorem c10_no_split_error_keeps_self_witness :
    ShortMessage.Split gsm7Test 1 { enc := some encBig } =
      some ([{ enc := some encBig, messageData := List.replicate 255 0 }],
            some Err.ErrShortMessageLengthTooLarge) :=
  (c10_no_split_error_keeps_self gsm7Test 1 { enc := some encBig } encBig
    rfl (Or.inl rfl)).2.2 (List.replicate 255 0) rfl
    (by rw [List.length_replicate]; decide)

/-- Claim C8: for a ShortMessage with a nil encoding, the GSM7BIT default is
consulted only for the split decision. In the no split branch the original
nil encoding is handed to SetMessageWithEncoding, whose Encode call on the
nil interface faults; in the split branch, when the splitter yields at
least one segment, reading DataCoding from the nil encoding faults. Neither
branch is total over a nil encoding. -/
theorem c8_nil_encoding_not_total (gsm7 : Encoding) (refNum : Nat)
    (c : ShortMessage) (henc : c.enc = none) :
    ShortMessage.SetMessageWithEncoding c c.message c.enc = none ∧
    (gsm7.splitter = none → ShortMessage.Split gsm7 refNum c = none) ∧
    (∀ sp, gsm7.splitter = some sp →
      sp.shouldSplit c.message SM_GSM_MSG_LEN = false →
      ShortMessage.Split gsm7 refNum c = none) ∧
    (∀ sp segs, gsm7.splitter = some sp →
      sp.shouldSplit c.message SM_GSM_MSG_LEN = true →
      sp.encodeSplit c.message (SM_GSM_MSG_LEN - 6) = (segs, none) →
      segs ≠ [] →
      ShortMessage.Split gsm7 refNum c = none) := by
  have hset0 : ShortMessage.SetMessageWithEncoding c c.message none = none := rfl
  have hset : ShortMessage.SetMessageWithEncoding c c.message c.enc = none := by
    rw [henc]; exact hset0
  refine ⟨hset, ?_, ?_, ?_⟩
  · intro hsp
    unfold ShortMessage.Split
    rw [henc]
    simp only [hsp, hset0]
  · intro sp hsp hshould
    unfold ShortMessage.Split
    rw [henc]
    simp only [hsp, hshould, hset0, Bool.false_eq_true, if_false]
  · intro sp segs hsp hshould hsegs hne
    unfold ShortMessage.Split
    rw [henc]
    simp only [hsp, hshould, hsegs, if_true, List.isEmpty_iff, hne, if_false]

/-- A test splitter that always reports a split into one single segment. -/
def spTest2 : Splitter :=
  { shouldSplit := fun _ _ => true, encodeSplit := fun _ _ => ([[1]], none) }

/-- A test stand in for GSM7BIT that carries the always splitting test
splitter. -/
def gsm7SplitTest : Encoding :=
  { dataCoding := 0, encode := fun _ => ([], none), splitter := some spTest2 }

/-- Claim C8, witness: splitting a zero value ShortMessage (nil encoding)
under the splitting GSM7BIT stand in faults. -/
theorem c8_nil_encoding_not_total_witness :
    ShortMessage.Split gsm7SplitTest 1 (zeroValueSM false) = none :=
  (c8_nil_encoding_not_total gsm7SplitTest 1 (zeroValueSM false) rfl).2.2.2
    spTest2 [[1]] rfl rfl rfl (by decide)

/-- The segment list has one element per chunk. -/
theorem mkSegments_length (c : ShortMessage) (e : Encoding) (total refNum : Nat) :
    ∀ (segs : List (List Nat)) (i : Nat),
      (mkSegments c e total refNum i segs).length = segs.length := by
  intro segs
  induction segs with
  | nil => intro i; rfl
  | cons s rest ih =>
    intro i
    simp only [mkSegments, List.length_cons, ih (i + 1)]

/-- Every built segment carries the data coding of the encoding, the
original encoding reference and the original flag. -/
theorem mkSegments_fields (c : ShortMessage) (e : Encoding) (total refNum : Nat) :
    ∀ (segs : List (List Nat)) (i : Nat) (sm : ShortMessage),
      sm ∈ mkSegments c e total refNum i segs →
      sm.dataCoding = e.dataCoding ∧ sm.enc = c.enc ∧
        sm.withoutDataCoding = c.withoutDataCoding := by
  intro segs
  induction segs with
  | nil =>
    intro i sm h
    exact absurd h (by simp [mkSegments])
  | cons s rest ih =>
    intro i sm h
    rw [mkSegments] at h
    rcases List.mem_cons.mp h with h1 | h2
    · subst h1; exact ⟨rfl, rfl, rfl⟩
    · exact ih (i + 1) sm h2

/-- The headers of the built segments are exactly the singleton
concatenation elements with the shared reference, the shared total and
consecutive part indices. -/
theorem mkSegments_udh (c : ShortMessage) (e : Encoding) (total refNum : Nat) :
    ∀ (segs : List (List Nat)) (i : Nat),
      (mkSegments c e total refNum i segs).map (fun sm => sm.udHeader) =
        (List.range segs.length).map
          (fun j => [NewIEConcatMessage (total % 256) ((i + j + 1) % 256) (refNum % 256)]) := by
  intro segs
  induction segs with
  | nil => intro i; rfl
  | cons s rest ih =>
    intro i
    simp only [mkSegments, List.map_cons, List.length_cons, List.range_succ_eq_map,
      List.map_map, ih (i + 1)]
    congr 1
    refine List.map_congr_left ?_
    intro j _
    simp only [Function.comp_apply]
    congr 2
    omega

/-- Claim C6: when the message encoding offers the Splitter capability and
reports that a split is needed, and the splitter produces a nonempty chunk
list of at most 255 chunks, Split succeeds with one ShortMessage per chunk:
every segment carries a single concatenation element with the same
reference byte and with total parts equal to the segment count, the part
indices run 1 through N in order, and every segment keeps the data coding,
the encoding and the withoutDataCoding flag of the original (whose data
coding agrees with its encoding, as every constructor ensures). -/
theorem c6_split_segments (gsm7 : Encoding) (refNum : Nat) (c : ShortMessage)
    (e : Encoding) (sp : Splitter) (segs : List (List Nat))
    (henc : c.enc = some e) (hsp : e.splitter = some sp)
    (hshould : sp.shouldSplit c.message SM_GSM_MSG_LEN = true)
    (hsegs : sp.encodeSplit c.message (SM_GSM_MSG_LEN - 6) = (segs, none))
    (hne : segs ≠ []) (hlt : segs.length ≤ 255)
    (hdc : c.dataCoding = e.dataCoding) :
    ShortMessage.Split gsm7 refNum c =
      some (mkSegments c e segs.length refNum 0 segs, none) ∧
    (mkSegments c e segs.length refNum 0 segs).length = segs.length ∧
    1 ≤ segs.length ∧
    (∀ sm ∈ mkSegments c e segs.length refNum 0 segs,
      sm.dataCoding = c.dataCoding ∧ sm.enc = c.enc ∧
        sm.withoutDataCoding = c.withoutDataCoding) ∧
    (mkSegments c e segs.length refNum 0 segs).map (fun sm => sm.udHeader) =
      (List.range segs.length).map
        (fun j => [NewIEConcatMessage segs.length (j + 1) (refNum % 256)]) := by
  refine ⟨?_, mkSegments_length c e segs.length refNum segs 0, ?_, ?_, ?_⟩
  · unfold ShortMessage.Split
    rw [henc]
    simp only [hsp, hshould, hsegs, if_true]
  · exact List.length_pos.mpr hne
  · intro sm hsm
    obtain ⟨h1, h2, h3⟩ := mkSegments_fields c e segs.length refNum segs 0 sm hsm
    exact ⟨h1.trans hdc.symm, h2, h3⟩
  · rw [mkSegments_udh c e segs.length refNum segs 0]
    refine List.map_congr_left ?_
    intro j hj
    have hjn : j < segs.length := List.mem_range.mp hj
    have ht : segs.length % 256 = segs.length := Nat.mod_eq_of_lt (by omega)
    have hi : (0 + j + 1) % 256 = j + 1 := by omega
    rw [ht, hi]

/-- A test splitter that chops any message into two fixed chunks. -/
def spTest : Splitter :=
  { shouldSplit := fun _ _ => true, encodeSplit := fun _ _ => ([[1], [2]], none) }

/-- A test encoding that carries the two chunk splitter. -/
def encTest : Encoding :=
  { dataCoding := 8, encode := fun _ => ([], none), splitter := some spTest }

/-- A test message whose encoding is the two chunk splitting test encoding. -/
def smTest : ShortMessage :=
  { dataCoding := 8, enc := some encTest, message := "hi" }

/-- Claim C6, witness: the split theorem applied to the two chunk test
encoding. -/
theorem c6_split_segments_witness :
    ShortMessage.Split gsm7Test 3 smTest =
      some (mkSegments smTest encTest 2 3 0 [[1], [2]], none) ∧
    (mkSegments smTest encTest 2 3 0 [[1], [2]]).length = 2 ∧
    1 ≤ 2 ∧
    (∀ sm ∈ mkSegments smTest encTest 2 3 0 [[1], [2]],
      sm.dataCoding = smTest.dataCoding ∧ sm.enc = smTest.enc ∧
        sm.withoutDataCoding = smTest.withoutDataCoding) ∧
    (mkSegments smTest encTest 2 3 0 [[1], [2]]).map (fun sm => sm.udHeader) =
      (List.range 2).map (fun j => [NewIEConcatMessage 2 (j + 1) (3 % 256)]) :=
  c6_split_segments gsm7Test 3 smTest encTest spTest [[1], [2]]
    rfl rfl rfl rfl (by decide) (by decide) rfl

/-- Marshalling with no header emits the optional data coding byte, the
default message id byte, the truncated length byte and the truncated
payload. -/
theorem marshal_no_udh (s : ShortMessage) (hudh : s.udHeader = []) :
    ShortMessage.Marshal s =
      (if s.withoutDataCoding then [] else [s.dataCoding % 256]) ++
      [s.SmDefaultMsgID % 256] ++ [s.messageData.length % 256] ++
      s.messageData.take (s.messageData.length % 256) := by
  unfold ShortMessage.Marshal
  rw [hudh]
  simp [UDHL, udhSum]

/-- The ShortMessage used to refute the round trip claim: a one byte
payload under a one element concatenation header. -/
def c5ex : ShortMessage :=
  { SmDefaultMsgID := 7, dataCoding := 8,
    udHeader := [{ tag := 0, data := [1, 1, 1] }], messageData := [65] }

/-- Claim C5, counterexample: marshalling a ShortMessage that carries a UDH
and unmarshalling the produced bytes with udhi true yields a record whose
payload is the header bytes concatenated with the original payload, not the
original payload, so the round trip claim fails at this input. -/
theorem c5_counterexample :
    (ShortMessage.Unmarshal (fun _ => none) (zeroValueSM false)
        (ShortMessage.Marshal c5ex) true).map (fun s1 => s1.messageData) =
      some [5, 0, 3, 1, 1, 1, 65] ∧
    c5ex.messageData = [65] ∧
    ([5, 0, 3, 1, 1, 1, 65] : List Nat) ≠ [65] := by
  refine ⟨rfl, rfl, by decide⟩

/-- Claim C5 (amended): for a ShortMessage with no UDH and a payload of at
most 255 bytes, marshalling and unmarshalling the produced bytes with the
matching udhi flag (false, as the message carries no header) and the same
withoutDataCoding flag recovers sm_default_msg_id, the payload and the
(empty) header exactly; the data coding is recovered when
withoutDataCoding is false and is overwritten with 0 (with the encoding
rederived from coding 0) when the flag is true. -/
theorem c5_roundtrip (fdc : Nat → Option Encoding) (s : ShortMessage)
    (hudh : s.udHeader = [])
    (hlen : s.messageData.length ≤ 255)
    (hdc : s.dataCoding < 256) (hid : s.SmDefaultMsgID < 256) :
    ShortMessage.Unmarshal fdc (zeroValueSM s.withoutDataCoding)
        (ShortMessage.Marshal s) false =
      some { SmDefaultMsgID := s.SmDefaultMsgID,
             dataCoding := if s.withoutDataCoding then 0 else s.dataCoding,
             message := "",
             enc := fdc (if s.withoutDataCoding then 0 else s.dataCoding),
             udHeader := [],
             messageData := s.messageData,
             withoutDataCoding := s.withoutDataCoding } := by
  have hn : s.messageData.length % 256 = s.messageData.length :=
    Nat.mod_eq_of_lt (by omega)
  have hdc' : s.dataCoding % 256 = s.dataCoding := Nat.mod_eq_of_lt hdc
  have hid' : s.SmDefaultMsgID % 256 = s.SmDefaultMsgID := Nat.mod_eq_of_lt hid
  rw [marshal_no_udh s hudh, hn, hdc', hid', List.take_length]
  cases hw : s.withoutDataCoding with
  | false =>
    simp only [if_false, Bool.false_eq_true, List.nil_append, List.cons_append,
      List.append_nil, List.singleton_append]
    unfold ShortMessage.Unmarshal
    simp only [zeroValueSM, readByte, readN, List.length_cons, le_refl,
      List.take_length, List.drop_length, if_true, Nat.le_refl]
    simp [ShortMessage.SetDataCoding]
  | true =>
    simp only [if_true, List.nil_append, List.cons_append,
      List.append_nil, List.singleton_append]
    unfold ShortMessage.Unmarshal
    simp only [zeroValueSM, readByte, readN, List.length_cons, le_refl,
      List.take_length, List.drop_length, if_true, Nat.le_refl]
    simp [ShortMessage.SetDataCoding]

/-- Claim C5, witness: the round trip theorem applied to a two byte payload
with data coding 2 and message id 1. -/
theorem c5_roundtrip_witness :
    ShortMessage.Unmarshal (fun _ => none) (zeroValueSM false)
        (ShortMessage.Marshal { SmDefaultMsgID := 1, dataCoding := 2,
                                messageData := [10, 20] }) false =
      some { SmDefaultMsgID := 1, dataCoding := 2, message := "", enc := none,
             udHeader := [], messageData := [10, 20], withoutDataCoding := false } :=
  c5_roundtrip (fun _ => none)
    { SmDefaultMsgID := 1, dataCoding := 2, messageData := [10, 20] }
    rfl (by decide) (by decide) (by decide)

end Gosmpp
